import Mathlib

/-!
Verification development for the heap-memory-error-detection engine of the
syzygy repository (SyzyASan runtime).  The repository sources available here
contain only the runtime unit tests (asan_rtl_unittest.cc); the engine itself
(shadow memory, block layout, heap proxy, access checker, runtime) is modelled
from the specification, with the unit tests fixing the expected behaviour at
every point where the specification leaves latitude.

Addresses are modelled as integers, sizes and counts as natural numbers, and
shadow state is derived at byte granularity from the set of blocks owned by a
heap proxy, as the specification requires the shadow to be consistent with the
block layout at all times.
-/

/-- Modelled from the spec: the state flag carried by a block header
(live vs freed/quarantined); the implementation is not in the sources. -/
inductive BlockState where
  | live
  | freed
  deriving DecidableEq

/-- Modelled from the spec: the error kinds of section 7 of the spec
(asan_rtl error enumeration, not in the sources). -/
inductive BadAccessKind where
  | UNKNOWN_BAD_ACCESS
  | WILD_ACCESS
  | INVALID_ADDRESS
  | USE_AFTER_FREE
  | HEAP_BUFFER_OVERFLOW
  | HEAP_BUFFER_UNDERFLOW
  | DOUBLE_FREE
  | CORRUPT_BLOCK
  deriving DecidableEq

/-- Modelled from the spec: the x86 block-instruction families handled by the
special access checkers (movs/cmps/stos entry points of asan_rtl_impl). -/
inductive AccessKind where
  | movs
  | cmps
  | stos
  deriving DecidableEq

/-- Modelled from the spec: the direction flag of a string instruction,
represented as an explicit enum parameter per the design notes. -/
inductive Direction where
  | forward
  | backward
  deriving DecidableEq

/-- Modelled from the spec: the block trailer placed inside the trailing
redzone, carrying the free call-stack reference, free thread id and one
non-essential bookkeeping field (the allocating thread id of the trailer). -/
structure BlockTrailer where
  freeStack : List Nat
  freeTid : Nat
  allocTid : Nat
  deriving DecidableEq

/-- Modelled from the spec: one instrumented allocation: header, user data,
trailer, surrounding redzones, allocation stack, state flag and checksum. -/
structure Block where
  userBase : Int
  userSize : Nat
  redzoneFront : Nat
  redzoneBack : Nat
  frontBytes : List Nat
  trailer : BlockTrailer
  allocStack : List Nat
  allocTid : Nat
  state : BlockState
  checksum : Nat
  deriving DecidableEq

/-- Modelled from the spec: the state of one heap proxy: the ordered list of
blocks (live and quarantined) whose storage it owns. -/
structure HeapState where
  blocks : List Block
  deriving DecidableEq

/-- Modelled from the spec: the runtime parameter surface (quarantine budget
and the corruption-scan-on-error toggle check_heap_on_failure). -/
structure RuntimeParams where
  quarantineSize : Nat
  checkHeapOnFailure : Bool
  deriving DecidableEq

/-- Modelled from the spec: an opaque CPU register/flag context, treated as
data and round-tripped into error reports per the design notes. -/
structure CpuContext where
  eax : Nat
  ebx : Nat
  ecx : Nat
  edx : Nat
  esi : Nat
  edi : Nat
  ebp : Nat
  esp : Nat
  eip : Nat
  eflags : Nat
  deriving DecidableEq

/-- Modelled from the spec: the per-block summary recorded for each block
found during a corruption scan (AsanBlockInfo). -/
structure AsanBlockInfo where
  header : Int
  userSize : Nat
  corrupt : Bool
  allocStack : List Nat
  freeStack : List Nat
  deriving DecidableEq

/-- Modelled from the spec: one corrupt range assembled by the heap-corruption
scanner: the scanned address span and the per-block summaries found in it. -/
structure AsanCorruptBlockRange where
  spanLo : Int
  spanHi : Int
  blockInfos : List AsanBlockInfo
  deriving DecidableEq

/-- Modelled from the spec: the structured error report delivered to the
registered callback (AsanErrorInfo). -/
structure ErrorInfo where
  errorType : BadAccessKind
  address : Int
  accessSize : Nat
  allocStack : List Nat
  allocTid : Nat
  freeStack : List Nat
  freeTid : Nat
  context : CpuContext
  heapIsCorrupt : Bool
  corruptRanges : List AsanCorruptBlockRange
  deriving DecidableEq

def listSum (l : List Nat) : Nat := l.foldl (fun a x => a + x) 0

/-- Modelled from the spec: the block checksum, computed over the header,
trailer and redzone content of the block (the concrete hash is not in the
sources; any function injective in each corrupted field serves the contract
that a single-field modification invalidates the checksum). -/
def blockChecksum (b : Block) : Nat :=
  listSum b.frontBytes + b.userSize + listSum b.trailer.freeStack +
    b.trailer.freeTid + b.trailer.allocTid

/-- ChecksumValid of the spec: recompute and compare. -/
def checksumOkB (b : Block) : Bool := decide (b.checksum = blockChecksum b)

/-- First byte of the block storage (start of the front redzone). -/
def Block.lo (b : Block) : Int := b.userBase - (b.redzoneFront : Int)

/-- One past the last byte of the block storage (end of the back redzone,
which hosts the trailer). -/
def Block.hi (b : Block) : Int := b.userBase + (b.userSize : Int) + (b.redzoneBack : Int)

/-- One past the last user byte. -/
def Block.userEnd (b : Block) : Int := b.userBase + (b.userSize : Int)

/-- Whether the byte at address a lies inside the block storage. -/
def Block.coversB (b : Block) (a : Int) : Bool :=
  decide (b.lo ≤ a) && decide (a < b.hi)

/-- Modelled from the spec: resolve the block whose storage covers an address
(back-pointer resolution validated against the block index). -/
def findBlock (h : HeapState) (a : Int) : Option Block :=
  h.blocks.find? (fun b => b.coversB a)

/-- Modelled from the spec: derived byte-level shadow state: a byte is
addressable exactly when it lies in the user range of a live block; redzones
and freed blocks are unaddressable. -/
def accessible (h : HeapState) (a : Int) : Bool :=
  match findBlock h a with
  | some b =>
      decide (b.state = BlockState.live) && decide (b.userBase ≤ a) &&
        decide (a < b.userEnd)
  | none => false

/-- Lower bound of the mapped address space; accesses below it that hit no
block are classified as invalid rather than wild. -/
def lowBound : Int := 65536

/-- Modelled from the spec: classification of an unaddressable byte
(section 4.4): use-after-free inside the former user range of a freed block,
underflow before the user data, overflow past it, wild or invalid outside
any block. -/
def classifyBad (h : HeapState) (a : Int) : BadAccessKind :=
  match findBlock h a with
  | some b =>
      if b.state = BlockState.freed ∧ b.userBase ≤ a ∧ a < b.userEnd then
        BadAccessKind.USE_AFTER_FREE
      else if a < b.userBase then BadAccessKind.HEAP_BUFFER_UNDERFLOW
      else BadAccessKind.HEAP_BUFFER_OVERFLOW
  | none =>
      if a < lowBound then BadAccessKind.INVALID_ADDRESS
      else BadAccessKind.WILD_ACCESS

/-- Per-block summary recorded by the corruption scanner. -/
def toBlockInfo (b : Block) : AsanBlockInfo :=
  { header := b.lo
    userSize := b.userSize
    corrupt := !(checksumOkB b)
    allocStack := b.allocStack
    freeStack := b.trailer.freeStack }

/-- Modelled from the spec: ScanForCorruption: walk all blocks, validate each
checksum, and assemble one corrupt range per corrupt block found. -/
def scanForCorruption (h : HeapState) : List AsanCorruptBlockRange :=
  (h.blocks.filter (fun b => !(checksumOkB b))).map
    (fun b => { spanLo := b.lo, spanHi := b.hi, blockInfos := [toBlockInfo b] })

/-- Modelled from the spec: build the error report for an unaddressable byte:
classify it, snapshot the owning block metadata, capture the caller CPU
context, and run the corruption scan when check_heap_on_failure is set. -/
def mkErrorInfo (h : HeapState) (params : RuntimeParams) (a : Int) (size : Nat)
    (ctx : CpuContext) : ErrorInfo :=
  let ranges := if params.checkHeapOnFailure then scanForCorruption h else []
  let base : ErrorInfo :=
    { errorType := classifyBad h a
      address := a
      accessSize := size
      allocStack := []
      allocTid := 0
      freeStack := []
      freeTid := 0
      context := ctx
      heapIsCorrupt := !ranges.isEmpty
      corruptRanges := ranges }
  match findBlock h a with
  | some b =>
      { base with
          allocStack := b.allocStack
          allocTid := b.allocTid
          freeStack := b.trailer.freeStack
          freeTid := b.trailer.freeTid }
  | none => base

/-- Modelled from the spec: the single-address probe behind the
asan_check_N_byte_read_access entry points.  Per the spec example (section 8)
and the good-access unit test, the probe validates the addressability of the
accessed address itself; the access width selects the entry point and is
recorded in the report. -/
def checkAccess (h : HeapState) (params : RuntimeParams) (a : Int) (size : Nat)
    (ctx : CpuContext) : Option ErrorInfo :=
  if accessible h a then none else some (mkErrorInfo h params a size ctx)

/-- Modelled from the spec: the probe entry point saves the caller register
and flag context, runs the check on the saved state, and restores the context
before returning; the returned context is the caller context. -/
def checkAccessEntry (h : HeapState) (params : RuntimeParams) (a : Int)
    (size : Nat) (ctx : CpuContext) : CpuContext × Option ErrorInfo :=
  (ctx, checkAccess h params a size ctx)

/-- Address of element i of a string operation starting at base, given the
element width and the direction flag. -/
def elemAddr (base : Int) (width : Nat) (dir : Direction) (i : Nat) : Int :=
  match dir with
  | Direction.forward => base + ((i * width : Nat) : Int)
  | Direction.backward => base - ((i * width : Nat) : Int)

/-- Byte-wise equality of two elements of the given width. -/
def elemEqB (mem : Int → Nat) (a b : Int) : Nat → Bool
  | 0 => true
  | j + 1 => elemEqB mem a b j && decide (mem (a + (j : Int)) = mem (b + (j : Int)))

/-- Index of the first i < n satisfying p, scanning upward from 0. -/
def findFirst (p : Nat → Bool) : Nat → Option Nat
  | 0 => none
  | n + 1 =>
    match findFirst p n with
    | some m => some m
    | none => if p n then some n else none

/-- Index of the first element pair at which a compare-type instruction would
stop (the first mismatching element), if one exists within the count. -/
def cmpsMismatch (mem : Int → Nat) (width : Nat) (dir : Direction)
    (dst src : Int) (count : Nat) : Option Nat :=
  findFirst
    (fun i =>
      !(elemEqB mem (elemAddr dst width dir i) (elemAddr src width dir i) width))
    count

/-- Modelled from the spec: the element count actually touched by the
instruction: a compare-type instruction halts on the first mismatching
element (validated up to and including the mismatch); other instructions
touch the full nominal count. -/
def effectiveCount (mem : Int → Nat) (kind : AccessKind) (width : Nat)
    (dir : Direction) (dst src : Int) (count : Nat) : Nat :=
  match kind with
  | AccessKind.cmps =>
      match cmpsMismatch mem width dir dst src count with
      | some m => m + 1
      | none => count
  | _ => count

/-- First unaddressable byte of the element at address a, bytes scanned in
increasing order. -/
def findBadInElem (h : HeapState) (a : Int) : Nat → Option Int
  | 0 => none
  | j + 1 =>
    match findBadInElem h a j with
    | some x => some x
    | none =>
        if accessible h (a + (j : Int)) then none else some (a + (j : Int))

/-- First unaddressable byte over the given number of elements, elements
scanned in instruction order. -/
def findBadByte (h : HeapState) (base : Int) (width : Nat) (dir : Direction) :
    Nat → Option Int
  | 0 => none
  | i + 1 =>
    match findBadByte h base width dir i with
    | some x => some x
    | none => findBadInElem h (elemAddr base width dir i) width

/-- Modelled from the spec: lower end of the byte range touched by a range
access: base when forward, base - (count - 1) * width when backward. -/
def touchLo (base : Int) (count width : Nat) (dir : Direction) : Int :=
  match dir with
  | Direction.forward => base
  | Direction.backward => base - (((count - 1) * width : Nat) : Int)

/-- Modelled from the spec: upper end (exclusive) of the byte range touched by
a range access: base + count * width when forward, base + width when
backward. -/
def touchHi (base : Int) (count width : Nat) (dir : Direction) : Int :=
  match dir with
  | Direction.forward => base + ((count * width : Nat) : Int)
  | Direction.backward => base + ((width : Nat) : Int)

/-- Modelled from the spec: the range-access checker behind the
asan_check movs/cmps/stos entry points.  A zero count is a no-op; a compare
instruction is validated only up to its first mismatching element; the source
range (movs and cmps only, stos stores a register and has no memory source)
and the destination range are validated independently, and the first
unaddressable byte on a violating side is reported with that side address. -/
def checkSpecial (h : HeapState) (params : RuntimeParams) (mem : Int → Nat)
    (kind : AccessKind) (width count : Nat) (dir : Direction)
    (dst src : Int) (ctx : CpuContext) : Option ErrorInfo :=
  if count = 0 then none
  else
    let eff := effectiveCount mem kind width dir dst src count
    let srcBad :=
      match kind with
      | AccessKind.stos => none
      | _ => findBadByte h src width dir eff
    match srcBad with
    | some a => some (mkErrorInfo h params a width ctx)
    | none =>
      match findBadByte h dst width dir eff with
      | some a => some (mkErrorInfo h params a width ctx)
      | none => none

/-- Modelled from the spec: FreeBlock: record the free stack and thread id
into the trailer, mark the block freed, and recompute the stored checksum. -/
def freeStamp (b : Block) (fs : List Nat) (ftid : Nat) : Block :=
  let b1 : Block :=
    { b with
        state := BlockState.freed
        trailer := { b.trailer with freeStack := fs, freeTid := ftid } }
  { b1 with checksum := blockChecksum b1 }

/-- Error report raised on the free path (double free or corrupt block),
snapshotting the block metadata without modifying it. -/
def blockErr (b : Block) (k : BadAccessKind) (ctx : CpuContext) : ErrorInfo :=
  { errorType := k
    address := b.userBase
    accessSize := 0
    allocStack := b.allocStack
    allocTid := b.allocTid
    freeStack := b.trailer.freeStack
    freeTid := b.trailer.freeTid
    context := ctx
    heapIsCorrupt := false
    corruptRanges := [] }

/-- Modelled from the spec: the free path over the block list: an already
freed block is a double free, reported without modifying any state and the
call fails; a live block whose checksum does not validate raises a corrupt
block report, after which the free still proceeds: the block is free-stamped
and the call succeeds. -/
def freeScan : List Block → Int → List Nat → Nat → CpuContext →
    List Block × Bool × List ErrorInfo
  | [], _, _, _, _ => ([], false, [])
  | b :: rest, ptr, fs, ftid, ctx =>
    if b.userBase = ptr then
      if b.state = BlockState.freed then
        (b :: rest, false, [blockErr b BadAccessKind.DOUBLE_FREE ctx])
      else
        (freeStamp b fs ftid :: rest, true,
          if checksumOkB b then [] else [blockErr b BadAccessKind.CORRUPT_BLOCK ctx])
    else
      let r := freeScan rest ptr fs ftid ctx
      (b :: r.1, r.2.1, r.2.2)

/-- Modelled from the spec: the HeapFree entry point: resolve the block from
the user pointer and run the free path; returns the new heap state, the
success flag, and the error reports delivered to the callback. -/
def heapFree (h : HeapState) (ptr : Int) (fs : List Nat) (ftid : Nat)
    (ctx : CpuContext) : HeapState × Bool × List ErrorInfo :=
  let r := freeScan h.blocks ptr fs ftid ctx
  (⟨r.1⟩, r.2.1, r.2.2)

/-- A block is well formed when each redzone is at least one shadow granule
(8 bytes); the back redzone hosts the trailer. -/
def wfBlockB (b : Block) : Bool :=
  decide (8 ≤ b.redzoneFront) && decide (8 ≤ b.redzoneBack)

/-- Storage ranges of two blocks are disjoint. -/
def disjointB (b c : Block) : Bool :=
  decide (b.hi ≤ c.lo) || decide (c.hi ≤ b.lo)

/-- Pairwise disjointness of a block list. -/
def pairwiseDisjointB : List Block → Bool
  | [] => true
  | b :: rest => rest.all (fun c => disjointB b c) && pairwiseDisjointB rest

/-- A heap state is well formed when its blocks are pairwise disjoint and
individually well formed. -/
def wfHeapB (h : HeapState) : Bool :=
  pairwiseDisjointB h.blocks && h.blocks.all wfBlockB

/-- Modelled from the spec: CreateBlock: lay out redzones of one granule on
each side, record the allocation stack and thread, and store a validating
checksum; the block starts live with an empty free trailer. -/
def mkLiveBlock (userBase : Int) (size : Nat) (allocStack : List Nat)
    (allocTid : Nat) : Block :=
  let b : Block :=
    { userBase := userBase
      userSize := size
      redzoneFront := 8
      redzoneBack := 8
      frontBytes := [202, 202, 202, 202, 202, 202, 202, 202]
      trailer := { freeStack := [], freeTid := 0, allocTid := allocTid }
      allocStack := allocStack
      allocTid := allocTid
      state := BlockState.live
      checksum := 0 }
  { b with checksum := blockChecksum b }

theorem coversB_iff (b : Block) (a : Int) :
    b.coversB a = true ↔ b.lo ≤ a ∧ a < b.hi := by
  simp [Block.coversB]

theorem disjointB_iff (b c : Block) :
    disjointB b c = true ↔ b.hi ≤ c.lo ∨ c.hi ≤ b.lo := by
  simp [disjointB]

theorem pairwiseDisjointB_cons (b : Block) (rest : List Block) :
    pairwiseDisjointB (b :: rest) = true ↔
      (∀ c ∈ rest, disjointB b c = true) ∧ pairwiseDisjointB rest = true := by
  simp [pairwiseDisjointB, List.all_eq_true]

theorem findBlock_list_eq (l : List Block) (b : Block) (a : Int)
    (hpd : pairwiseDisjointB l = true) (hb : b ∈ l) (hc : b.coversB a = true) :
    l.find? (fun c => c.coversB a) = some b := by
  induction l with
  | nil => cases hb
  | cons c rest ih =>
    rcases (pairwiseDisjointB_cons c rest).mp hpd with ⟨hall, hrest⟩
    rcases List.mem_cons.mp hb with hbc | hbm
    · subst hbc
      exact List.find?_cons_of_pos _ hc
    · by_cases hcc : c.coversB a = true
      · exfalso
        have hd := (disjointB_iff c b).mp (hall b hbm)
        have h1 := (coversB_iff c a).mp hcc
        have h2 := (coversB_iff b a).mp hc
        omega
      · rw [List.find?_cons_of_neg _ (by simpa using hcc)]
        exact ih hrest hbm

theorem findBlock_eq (h : HeapState) (b : Block) (a : Int)
    (hpd : pairwiseDisjointB h.blocks = true) (hb : b ∈ h.blocks)
    (hc : b.coversB a = true) : findBlock h a = some b :=
  findBlock_list_eq h.blocks b a hpd hb hc

theorem coversB_of_user (b : Block) (a : Int) (h1 : b.userBase ≤ a)
    (h2 : a < b.userEnd) : b.coversB a = true := by
  rw [coversB_iff]
  simp only [Block.lo, Block.hi, Block.userEnd] at *
  omega

theorem coversB_of_front (b : Block) (a : Int) (h1 : b.lo ≤ a)
    (h2 : a < b.userBase) : b.coversB a = true := by
  rw [coversB_iff]
  simp only [Block.lo, Block.hi] at *
  omega

theorem coversB_of_back (b : Block) (a : Int) (h1 : b.userEnd ≤ a)
    (h2 : a < b.hi) : b.coversB a = true := by
  rw [coversB_iff]
  simp only [Block.lo, Block.hi, Block.userEnd] at *
  omega

theorem accessible_user (h : HeapState) (b : Block) (a : Int)
    (hpd : pairwiseDisjointB h.blocks = true) (hb : b ∈ h.blocks)
    (hlive : b.state = BlockState.live) (h1 : b.userBase ≤ a)
    (h2 : a < b.userEnd) : accessible h a = true := by
  have hf := findBlock_eq h b a hpd hb (coversB_of_user b a h1 h2)
  simp [accessible, hf, hlive, h1, h2]

theorem accessible_false_of_outside_user (h : HeapState) (b : Block) (a : Int)
    (hpd : pairwiseDisjointB h.blocks = true) (hb : b ∈ h.blocks)
    (hcov : b.coversB a = true) (hout : a < b.userBase ∨ b.userEnd ≤ a) :
    accessible h a = false := by
  have hf := findBlock_eq h b a hpd hb hcov
  simp only [accessible, hf]
  rcases hout with hlt | hge
  · simp [show ¬ (b.userBase ≤ a) by omega]
  · simp [show ¬ (a < b.userEnd) by omega]

theorem accessible_false_of_freed (h : HeapState) (b : Block) (a : Int)
    (hpd : pairwiseDisjointB h.blocks = true) (hb : b ∈ h.blocks)
    (hcov : b.coversB a = true) (hfr : b.state = BlockState.freed) :
    accessible h a = false := by
  have hf := findBlock_eq h b a hpd hb hcov
  simp [accessible, hf, hfr]

theorem classifyBad_underflow (h : HeapState) (b : Block) (a : Int)
    (hpd : pairwiseDisjointB h.blocks = true) (hb : b ∈ h.blocks)
    (hcov : b.coversB a = true) (hlt : a < b.userBase) :
    classifyBad h a = BadAccessKind.HEAP_BUFFER_UNDERFLOW := by
  have hf := findBlock_eq h b a hpd hb hcov
  have : ¬ (b.state = BlockState.freed ∧ b.userBase ≤ a ∧ a < b.userEnd) := by
    rintro ⟨-, hle, -⟩; omega
  simp [classifyBad, hf, this, hlt]

theorem classifyBad_overflow (h : HeapState) (b : Block) (a : Int)
    (hpd : pairwiseDisjointB h.blocks = true) (hb : b ∈ h.blocks)
    (hcov : b.coversB a = true) (hge : b.userEnd ≤ a) :
    classifyBad h a = BadAccessKind.HEAP_BUFFER_OVERFLOW := by
  have hf := findBlock_eq h b a hpd hb hcov
  have hnuaf : ¬ (b.state = BlockState.freed ∧ b.userBase ≤ a ∧ a < b.userEnd) := by
    rintro ⟨-, -, hlt⟩; omega
  have hnlt : ¬ (a < b.userBase) := by
    simp only [Block.userEnd] at hge; omega
  simp [classifyBad, hf, hnuaf, hnlt]

theorem classifyBad_uaf (h : HeapState) (b : Block) (a : Int)
    (hpd : pairwiseDisjointB h.blocks = true) (hb : b ∈ h.blocks)
    (hfr : b.state = BlockState.freed) (h1 : b.userBase ≤ a)
    (h2 : a < b.userEnd) :
    classifyBad h a = BadAccessKind.USE_AFTER_FREE := by
  have hf := findBlock_eq h b a hpd hb (coversB_of_user b a h1 h2)
  simp [classifyBad, hf, hfr, h1, h2]

theorem mkErrorInfo_errorType (h : HeapState) (params : RuntimeParams)
    (a : Int) (size : Nat) (ctx : CpuContext) :
    (mkErrorInfo h params a size ctx).errorType = classifyBad h a := by
  unfold mkErrorInfo
  cases findBlock h a <;> rfl

theorem mkErrorInfo_address (h : HeapState) (params : RuntimeParams)
    (a : Int) (size : Nat) (ctx : CpuContext) :
    (mkErrorInfo h params a size ctx).address = a := by
  unfold mkErrorInfo
  cases findBlock h a <;> rfl

theorem mkErrorInfo_context (h : HeapState) (params : RuntimeParams)
    (a : Int) (size : Nat) (ctx : CpuContext) :
    (mkErrorInfo h params a size ctx).context = ctx := by
  unfold mkErrorInfo
  cases findBlock h a <;> rfl

theorem mkErrorInfo_free_fields (h : HeapState) (params : RuntimeParams)
    (a : Int) (size : Nat) (ctx : CpuContext) (b : Block)
    (hf : findBlock h a = some b) :
    (mkErrorInfo h params a size ctx).freeStack = b.trailer.freeStack ∧
      (mkErrorInfo h params a size ctx).freeTid = b.trailer.freeTid := by
  unfold mkErrorInfo
  rw [hf]
  exact ⟨rfl, rfl⟩

theorem mkErrorInfo_scan_fields (h : HeapState) (params : RuntimeParams)
    (a : Int) (size : Nat) (ctx : CpuContext)
    (hp : params.checkHeapOnFailure = true) :
    (mkErrorInfo h params a size ctx).corruptRanges = scanForCorruption h ∧
      (mkErrorInfo h params a size ctx).heapIsCorrupt =
        !(scanForCorruption h).isEmpty := by
  unfold mkErrorInfo
  rw [hp]
  cases findBlock h a <;> exact ⟨rfl, rfl⟩

theorem findFirst_eq_none (p : Nat → Bool) (n : Nat)
    (hp : ∀ i < n, p i = false) : findFirst p n = none := by
  induction n with
  | zero => rfl
  | succ m ih =>
    simp only [findFirst]
    rw [ih (fun i hi => hp i (Nat.lt_succ_of_lt hi))]
    simp [hp m (Nat.lt_succ_self m)]

theorem findFirst_eq_some (p : Nat → Bool) (n m : Nat) (hmn : m < n)
    (hlt : ∀ i < m, p i = false) (hm : p m = true) : findFirst p n = some m := by
  induction n with
  | zero => omega
  | succ k ih =>
    simp only [findFirst]
    rcases Nat.lt_succ_iff_lt_or_eq.mp hmn with hlt' | heq
    · rw [ih hlt']
    · subst heq
      rw [findFirst_eq_none p m hlt]
      simp [hm]

theorem findBadInElem_none_iff (h : HeapState) (a : Int) (w : Nat) :
    findBadInElem h a w = none ↔ ∀ j < w, accessible h (a + (j : Int)) = true := by
  induction w with
  | zero => simp [findBadInElem]
  | succ k ih =>
    simp only [findBadInElem]
    cases hk : findBadInElem h a k with
    | some x =>
      simp only [hk]
      constructor
      · intro hcon; cases hcon
      · intro hall
        have : findBadInElem h a k = none :=
          ih.mpr (fun j hj => hall j (Nat.lt_succ_of_lt hj))
        rw [hk] at this; cases this
    | none =>
      simp only [hk]
      have hall := ih.mp hk
      constructor
      · intro hif
        by_cases hacc : accessible h (a + (k : Int)) = true
        · intro j hj
          rcases Nat.lt_succ_iff_lt_or_eq.mp hj with hjk | hjk
          · exact hall j hjk
          · subst hjk; exact hacc
        · simp [hacc] at hif
      · intro hall'
        simp [hall' k (Nat.lt_succ_self k)]

theorem findBadByte_none_iff (h : HeapState) (base : Int) (width : Nat)
    (dir : Direction) (count : Nat) :
    findBadByte h base width dir count = none ↔
      ∀ i < count, ∀ j < width,
        accessible h (elemAddr base width dir i + (j : Int)) = true := by
  induction count with
  | zero => simp [findBadByte]
  | succ k ih =>
    simp only [findBadByte]
    cases hk : findBadByte h base width dir k with
    | some x =>
      simp only [hk]
      constructor
      · intro hcon; cases hcon
      · intro hall
        have : findBadByte h base width dir k = none :=
          ih.mpr (fun i hi => hall i (Nat.lt_succ_of_lt hi))
        rw [hk] at this; cases this
    | none =>
      simp only [hk]
      have hall := ih.mp hk
      rw [findBadInElem_none_iff]
      constructor
      · intro helem i hi
        rcases Nat.lt_succ_iff_lt_or_eq.mp hi with hik | hik
        · exact hall i hik
        · subst hik; exact helem
      · intro hall'
        exact hall' k (Nat.lt_succ_self k)

theorem findBadInElem_first (h : HeapState) (a : Int) (w : Nat) (hw : 0 < w)
    (hacc : accessible h a = false) : findBadInElem h a w = some a := by
  induction w with
  | zero => omega
  | succ k ih =>
    simp only [findBadInElem]
    cases k with
    | zero =>
      simp only [findBadInElem]
      simp [hacc]
    | succ m =>
      rw [ih (Nat.succ_pos m)]

theorem findBadByte_one (h : HeapState) (base : Int) (width : Nat)
    (dir : Direction) : findBadByte h base width dir 1 = findBadInElem h base width := by
  have : elemAddr base width dir 0 = base := by
    cases dir <;> simp [elemAddr]
  simp [findBadByte, this]

theorem byte_range_iff (x : Int) (w : Nat) (P : Int → Prop) :
    (∀ j : Nat, j < w → P (x + (j : Int))) ↔
      ∀ a : Int, x ≤ a → a < x + (w : Int) → P a := by
  constructor
  · intro hP a h1 h2
    have h4 : (a - x).toNat < w := by omega
    have h5 : x + (((a - x).toNat : Nat) : Int) = a := by omega
    have := hP (a - x).toNat h4
    rwa [h5] at this
  · intro hP j hj
    refine hP (x + (j : Int)) (by omega) (by omega)

theorem forward_cover (base : Int) (width : Nat) (P : Int → Prop) :
    ∀ count : Nat,
      (∀ i < count, ∀ j < width,
        P (elemAddr base width Direction.forward i + (j : Int))) ↔
        ∀ a : Int, base ≤ a → a < base + ((count * width : Nat) : Int) → P a := by
  intro count
  induction count with
  | zero =>
    constructor
    · intro _ a h1 h2
      simp only [Nat.zero_mul, Nat.cast_zero, add_zero] at h2
      omega
    · intro _ i hi; omega
  | succ c ih =>
    have hsplit : (∀ i < c + 1, ∀ j < width,
        P (elemAddr base width Direction.forward i + (j : Int))) ↔
        (∀ i < c, ∀ j < width,
          P (elemAddr base width Direction.forward i + (j : Int))) ∧
        (∀ j < width, P (elemAddr base width Direction.forward c + (j : Int))) := by
      constructor
      · intro hp
        exact ⟨fun i hi => hp i (Nat.lt_succ_of_lt hi), hp c (Nat.lt_succ_self c)⟩
      · rintro ⟨h1, h2⟩ i hi
        rcases Nat.lt_succ_iff_lt_or_eq.mp hi with hic | hic
        · exact h1 i hic
        · subst hic; exact h2
    rw [hsplit, ih]
    simp only [elemAddr]
    rw [byte_range_iff (base + ((c * width : Nat) : Int)) width P]
    have hmul : ((c + 1) * width : Nat) = (c * width : Nat) + width := by
      rw [Nat.succ_mul]
    constructor
    · rintro ⟨h1, h2⟩ a ha1 ha2
      rw [hmul] at ha2
      push_cast at ha2
      by_cases hc : a < base + ((c * width : Nat) : Int)
      · exact h1 a ha1 hc
      · exact h2 a (by omega) (by omega)
    · intro hP
      rw [hmul] at hP
      push_cast at hP
      constructor
      · intro a ha1 ha2
        exact hP a ha1 (by omega)
      · intro a ha1 ha2
        refine hP a (by omega) (by omega)

theorem backward_cover (base : Int) (width : Nat) (P : Int → Prop) :
    ∀ c : Nat,
      (∀ i < c + 1, ∀ j < width,
        P (elemAddr base width Direction.backward i + (j : Int))) ↔
        ∀ a : Int, base - ((c * width : Nat) : Int) ≤ a →
          a < base + (width : Int) → P a := by
  intro c
  induction c with
  | zero =>
    simp only [elemAddr]
    constructor
    · intro hp a h1 h2
      simp only [Nat.zero_mul, Nat.cast_zero, sub_zero] at h1
      have := (byte_range_iff base width P).mp (fun j hj => by
        have := hp 0 (Nat.lt_succ_self 0) j hj
        simpa using this)
      exact this a h1 h2
    · intro hp i hi j hj
      have hi0 : i = 0 := by omega
      subst hi0
      simp only [Nat.zero_mul, Nat.cast_zero, sub_zero]
      exact hp (base + (j : Int)) (by omega) (by omega)
  | succ k ih =>
    have hsplit : (∀ i < k + 2, ∀ j < width,
        P (elemAddr base width Direction.backward i + (j : Int))) ↔
        (∀ i < k + 1, ∀ j < width,
          P (elemAddr base width Direction.backward i + (j : Int))) ∧
        (∀ j < width, P (elemAddr base width Direction.backward (k + 1) + (j : Int))) := by
      constructor
      · intro hp
        exact ⟨fun i hi => hp i (Nat.lt_succ_of_lt hi), hp (k + 1) (Nat.lt_succ_self _)⟩
      · rintro ⟨h1, h2⟩ i hi
        rcases Nat.lt_succ_iff_lt_or_eq.mp hi with hic | hic
        · exact h1 i hic
        · subst hic; exact h2
    rw [hsplit, ih]
    simp only [elemAddr]
    rw [byte_range_iff (base - (((k + 1) * width : Nat) : Int)) width P]
    have hmul : ((k + 1) * width : Nat) = (k * width : Nat) + width := by
      rw [Nat.succ_mul]
    rw [hmul]
    push_cast
    constructor
    · rintro ⟨h1, h2⟩ a ha1 ha2
      by_cases hc : base - ((k * width : Nat) : Int) ≤ a
      · exact h1 a hc ha2
      · exact h2 a (by omega) (by omega)
    · intro hP
      constructor
      · intro a ha1 ha2
        exact hP a (by omega) ha2
      · intro a ha1 ha2
        refine hP a (by omega) (by omega)

theorem wfHeapB_parts (h : HeapState) (hwf : wfHeapB h = true) :
    pairwiseDisjointB h.blocks = true ∧ ∀ b ∈ h.blocks, wfBlockB b = true := by
  simp only [wfHeapB, Bool.and_eq_true, List.all_eq_true] at hwf
  exact hwf

theorem wfBlockB_iff (b : Block) :
    wfBlockB b = true ↔ 8 ≤ b.redzoneFront ∧ 8 ≤ b.redzoneBack := by
  simp [wfBlockB]

theorem pairwise_pre_disjoint (pre post : List Block) (b : Block)
    (hpd : pairwiseDisjointB (pre ++ b :: post) = true) :
    ∀ c ∈ pre, disjointB c b = true := by
  induction pre with
  | nil => intro c hc; cases hc
  | cons d pre' ih =>
    rcases (pairwiseDisjointB_cons d (pre' ++ b :: post)).mp hpd with ⟨hall, hrest⟩
    intro c hc
    rcases List.mem_cons.mp hc with hcd | hcm
    · subst hcd
      exact hall b (List.mem_append_right pre' (List.mem_cons_self b post))
    · exact ih hrest c hcm

theorem userBase_ne_of_disjoint (c b : Block) (hc : wfBlockB c = true)
    (hb : wfBlockB b = true) (hd : disjointB c b = true) :
    c.userBase ≠ b.userBase := by
  rw [wfBlockB_iff] at hc hb
  rw [disjointB_iff] at hd
  simp only [Block.lo, Block.hi] at hd
  omega

theorem freeStamp_lo (b : Block) (fs : List Nat) (ftid : Nat) :
    (freeStamp b fs ftid).lo = b.lo := rfl

theorem freeStamp_hi (b : Block) (fs : List Nat) (ftid : Nat) :
    (freeStamp b fs ftid).hi = b.hi := rfl

theorem freeStamp_userBase (b : Block) (fs : List Nat) (ftid : Nat) :
    (freeStamp b fs ftid).userBase = b.userBase := rfl

theorem freeStamp_userEnd (b : Block) (fs : List Nat) (ftid : Nat) :
    (freeStamp b fs ftid).userEnd = b.userEnd := rfl

theorem freeStamp_state (b : Block) (fs : List Nat) (ftid : Nat) :
    (freeStamp b fs ftid).state = BlockState.freed := rfl

theorem freeStamp_freeStack (b : Block) (fs : List Nat) (ftid : Nat) :
    (freeStamp b fs ftid).trailer.freeStack = fs := rfl

theorem freeStamp_freeTid (b : Block) (fs : List Nat) (ftid : Nat) :
    (freeStamp b fs ftid).trailer.freeTid = ftid := rfl

theorem freeStamp_checksumOk (b : Block) (fs : List Nat) (ftid : Nat) :
    checksumOkB (freeStamp b fs ftid) = true := by
  simp [freeStamp, checksumOkB, blockChecksum]

theorem disjointB_congr_left (b b' c : Block) (hlo : b'.lo = b.lo)
    (hhi : b'.hi = b.hi) : disjointB c b' = disjointB c b := by
  simp [disjointB, hlo, hhi]

theorem disjointB_congr_right (b b' c : Block) (hlo : b'.lo = b.lo)
    (hhi : b'.hi = b.hi) : disjointB b' c = disjointB b c := by
  simp [disjointB, hlo, hhi]

theorem all_disjoint_replace (l1 l2 : List Block) (b b' c : Block)
    (hlo : b'.lo = b.lo) (hhi : b'.hi = b.hi)
    (hall : (l1 ++ b :: l2).all (fun d => disjointB c d) = true) :
    (l1 ++ b' :: l2).all (fun d => disjointB c d) = true := by
  simp only [List.all_append, List.all_cons, Bool.and_eq_true] at hall ⊢
  exact ⟨hall.1, (disjointB_congr_left b b' c hlo hhi).symm ▸ hall.2.1, hall.2.2⟩

theorem pairwiseDisjointB_replace (pre post : List Block) (b b' : Block)
    (hlo : b'.lo = b.lo) (hhi : b'.hi = b.hi)
    (hpd : pairwiseDisjointB (pre ++ b :: post) = true) :
    pairwiseDisjointB (pre ++ b' :: post) = true := by
  induction pre with
  | nil =>
    rcases (pairwiseDisjointB_cons b post).mp hpd with ⟨hall, hrest⟩
    refine (pairwiseDisjointB_cons b' post).mpr ⟨?_, hrest⟩
    intro c hc
    rw [disjointB_congr_right b b' c hlo hhi]
    exact hall c hc
  | cons d pre' ih =>
    rcases (pairwiseDisjointB_cons d (pre' ++ b :: post)).mp hpd with ⟨hall, hrest⟩
    refine (pairwiseDisjointB_cons d (pre' ++ b' :: post)).mpr ⟨?_, ih hrest⟩
    intro c hc
    rcases List.mem_append.mp hc with hc1 | hc2
    · exact hall c (List.mem_append_left _ hc1)
    · rcases List.mem_cons.mp hc2 with hcb | hcp
      · subst hcb
        rw [disjointB_congr_left b c d hlo hhi]
        exact hall b (List.mem_append_right _ (List.mem_cons_self b post))
      · exact hall c (List.mem_append_right _ (List.mem_cons_of_mem b hcp))

theorem freeScan_live (pre post : List Block) (b : Block) (ptr : Int)
    (fs : List Nat) (ftid : Nat) (ctx : CpuContext)
    (hpre : ∀ c ∈ pre, c.userBase ≠ ptr) (hb : b.userBase = ptr)
    (hlive : b.state = BlockState.live) :
    freeScan (pre ++ b :: post) ptr fs ftid ctx =
      (pre ++ freeStamp b fs ftid :: post, true,
        if checksumOkB b then []
        else [blockErr b BadAccessKind.CORRUPT_BLOCK ctx]) := by
  induction pre with
  | nil =>
    subst hb
    simp [freeScan, hlive]
  | cons c pre' ih =>
    have hc := hpre c (List.mem_cons_self c pre')
    have ih2 := ih (fun d hd => hpre d (List.mem_cons_of_mem c hd))
    simp only [List.cons_append, freeScan, if_neg hc, List.append_eq, ih2]

theorem freeScan_freed (pre post : List Block) (b : Block) (ptr : Int)
    (fs : List Nat) (ftid : Nat) (ctx : CpuContext)
    (hpre : ∀ c ∈ pre, c.userBase ≠ ptr) (hb : b.userBase = ptr)
    (hfr : b.state = BlockState.freed) :
    freeScan (pre ++ b :: post) ptr fs ftid ctx =
      (pre ++ b :: post, false, [blockErr b BadAccessKind.DOUBLE_FREE ctx]) := by
  induction pre with
  | nil =>
    subst hb
    simp [freeScan, hfr]
  | cons c pre' ih =>
    have hc := hpre c (List.mem_cons_self c pre')
    have ih2 := ih (fun d hd => hpre d (List.mem_cons_of_mem c hd))
    simp only [List.cons_append, freeScan, if_neg hc, List.append_eq, ih2]

theorem effectiveCount_movs (mem : Int → Nat) (width : Nat) (dir : Direction)
    (dst src : Int) (count : Nat) :
    effectiveCount mem AccessKind.movs width dir dst src count = count := rfl

theorem effectiveCount_stos (mem : Int → Nat) (width : Nat) (dir : Direction)
    (dst src : Int) (count : Nat) :
    effectiveCount mem AccessKind.stos width dir dst src count = count := rfl

theorem effectiveCount_cmps_mismatch (mem : Int → Nat) (width : Nat)
    (dir : Direction) (dst src : Int) (count m : Nat) (hm : m < count)
    (hpre : ∀ i < m,
      elemEqB mem (elemAddr dst width dir i) (elemAddr src width dir i) width = true)
    (hmis : elemEqB mem (elemAddr dst width dir m) (elemAddr src width dir m) width
      = false) :
    effectiveCount mem AccessKind.cmps width dir dst src count = m + 1 := by
  have hf : cmpsMismatch mem width dir dst src count = some m := by
    apply findFirst_eq_some _ _ _ hm
    · intro i hi
      simp [hpre i hi]
    · simp [hmis]
  simp [effectiveCount, hf]

theorem effectiveCount_cmps_all_eq (mem : Int → Nat) (width : Nat)
    (dir : Direction) (dst src : Int) (count : Nat)
    (hall : ∀ i < count,
      elemEqB mem (elemAddr dst width dir i) (elemAddr src width dir i) width = true) :
    effectiveCount mem AccessKind.cmps width dir dst src count = count := by
  have hf : cmpsMismatch mem width dir dst src count = none := by
    apply findFirst_eq_none
    intro i hi
    simp [hall i hi]
  simp [effectiveCount, hf]

theorem effectiveCount_one (mem : Int → Nat) (kind : AccessKind) (width : Nat)
    (dir : Direction) (dst src : Int) :
    effectiveCount mem kind width dir dst src 1 = 1 := by
  cases kind with
  | movs => rfl
  | stos => rfl
  | cmps =>
    by_cases hp : elemEqB mem (elemAddr dst width dir 0) (elemAddr src width dir 0)
        width = true
    · exact effectiveCount_cmps_all_eq mem width dir dst src 1
        (fun i hi => by have : i = 0 := by omega
                        subst this; exact hp)
    · have hp' : elemEqB mem (elemAddr dst width dir 0) (elemAddr src width dir 0)
          width = false := by
        cases hq : elemEqB mem (elemAddr dst width dir 0) (elemAddr src width dir 0)
            width
        · rfl
        · exact absurd hq hp
      exact effectiveCount_cmps_mismatch mem width dir dst src 1 0 (by omega)
        (fun i hi => by omega) hp'

theorem elemEqB_const (mem : Int → Nat) (c : Nat) (hmem : ∀ x, mem x = c)
    (a b : Int) (w : Nat) : elemEqB mem a b w = true := by
  induction w with
  | zero => rfl
  | succ k ih => simp [elemEqB, ih, hmem]

theorem checkSpecial_src_bad (h : HeapState) (params : RuntimeParams)
    (mem : Int → Nat) (kind : AccessKind) (width count : Nat) (dir : Direction)
    (dst src : Int) (ctx : CpuContext) (a : Int)
    (hk : kind ≠ AccessKind.stos) (hc : count ≠ 0)
    (ha : findBadByte h src width dir
      (effectiveCount mem kind width dir dst src count) = some a) :
    checkSpecial h params mem kind width count dir dst src ctx =
      some (mkErrorInfo h params a width ctx) := by
  cases kind with
  | stos => exact absurd rfl hk
  | movs => simp [checkSpecial, hc, ha]
  | cmps => simp [checkSpecial, hc, ha]

theorem checkSpecial_src_ok_dst_bad (h : HeapState) (params : RuntimeParams)
    (mem : Int → Nat) (kind : AccessKind) (width count : Nat) (dir : Direction)
    (dst src : Int) (ctx : CpuContext) (a : Int) (hc : count ≠ 0)
    (hsrc : kind = AccessKind.stos ∨ findBadByte h src width dir
      (effectiveCount mem kind width dir dst src count) = none)
    (hdst : findBadByte h dst width dir
      (effectiveCount mem kind width dir dst src count) = some a) :
    checkSpecial h params mem kind width count dir dst src ctx =
      some (mkErrorInfo h params a width ctx) := by
  cases kind with
  | stos => simp [checkSpecial, hc, hdst]
  | movs =>
    rcases hsrc with hsrc | hsrc
    · cases hsrc
    · simp [checkSpecial, hc, hsrc, hdst]
  | cmps =>
    rcases hsrc with hsrc | hsrc
    · cases hsrc
    · simp [checkSpecial, hc, hsrc, hdst]

theorem checkSpecial_all_ok (h : HeapState) (params : RuntimeParams)
    (mem : Int → Nat) (kind : AccessKind) (width count : Nat) (dir : Direction)
    (dst src : Int) (ctx : CpuContext) (hc : count ≠ 0)
    (hsrc : kind = AccessKind.stos ∨ findBadByte h src width dir
      (effectiveCount mem kind width dir dst src count) = none)
    (hdst : findBadByte h dst width dir
      (effectiveCount mem kind width dir dst src count) = none) :
    checkSpecial h params mem kind width count dir dst src ctx = none := by
  cases kind with
  | stos => simp [checkSpecial, hc, hdst]
  | movs =>
    rcases hsrc with hsrc | hsrc
    · cases hsrc
    · simp [checkSpecial, hc, hsrc, hdst]
  | cmps =>
    rcases hsrc with hsrc | hsrc
    · cases hsrc
    · simp [checkSpecial, hc, hsrc, hdst]

theorem scanForCorruption_single (pre post : List Block) (b : Block)
    (hpre : ∀ c ∈ pre, checksumOkB c = true)
    (hpost : ∀ c ∈ post, checksumOkB c = true)
    (hb : checksumOkB b = false) :
    scanForCorruption ⟨pre ++ b :: post⟩ =
      [{ spanLo := b.lo, spanHi := b.hi, blockInfos := [toBlockInfo b] }] := by
  have h1 : pre.filter (fun c => !(checksumOkB c)) = [] := by
    rw [List.filter_eq_nil_iff]
    intro c hc
    simp [hpre c hc]
  have h2 : post.filter (fun c => !(checksumOkB c)) = [] := by
    rw [List.filter_eq_nil_iff]
    intro c hc
    simp [hpost c hc]
  simp [scanForCorruption, List.filter_append, List.filter_cons, h1, h2, hb]

theorem corrupt_trailer_invalidates (b : Block) (v : Nat)
    (hok : checksumOkB b = true) (hv : v ≠ b.trailer.allocTid) :
    checksumOkB { b with trailer := { b.trailer with allocTid := v } } = false := by
  simp only [checksumOkB, blockChecksum, decide_eq_true_eq] at hok
  simp [checksumOkB, blockChecksum]
  omega

/-- Concrete CPU context used by the evaluation witnesses. -/
def demoCtx : CpuContext :=
  { eax := 1, ebx := 2, ecx := 3, edx := 4, esi := 5, edi := 6, ebp := 7,
    esp := 8, eip := 9, eflags := 10 }

/-- Concrete parameter set with the corruption scan disabled. -/
def demoParams : RuntimeParams := { quarantineSize := 1000, checkHeapOnFailure := false }

/-- Concrete parameter set with the corruption scan enabled. -/
def demoParamsScan : RuntimeParams := { quarantineSize := 1000, checkHeapOnFailure := true }

/-- Concrete 13-byte allocation, as in the unit tests. -/
def demoBlock : Block := mkLiveBlock 100000 13 [7] 5

/-- Concrete heap holding the 13-byte allocation. -/
def demoHeap : HeapState := ⟨[demoBlock]⟩

/-- Concrete source buffer of 13 four-byte elements. -/
def demoSrc : Block := mkLiveBlock 200000 52 [7] 5

/-- Concrete destination buffer of 13 four-byte elements. -/
def demoDst : Block := mkLiveBlock 300000 52 [8] 5

/-- Concrete heap holding the two buffers. -/
def demoHeap2 : HeapState := ⟨[demoDst, demoSrc]⟩

/-- Memory contents that are zero everywhere. -/
def demoMem0 : Int → Nat := fun _ => 0

/-- Memory contents where element 1 of the source buffer differs from the
(zero) destination contents, as in the shortcut unit test. -/
def demoMem3 : Int → Nat := fun a => if 200004 ≤ a ∧ a < 200008 then 1 else 0

/-- C1: for an allocation of 13 bytes returning user pointer ptr, a
4-byte-width read check at ptr+13 reports HEAP_BUFFER_OVERFLOW, a check at
ptr-1 reports HEAP_BUFFER_UNDERFLOW, and for every i in [0,13) a check at
ptr+i reports no error. -/
theorem C1_alloc13_probes (h : HeapState) (params : RuntimeParams)
    (ctx : CpuContext) (b : Block) (hwf : wfHeapB h = true) (hb : b ∈ h.blocks)
    (hlive : b.state = BlockState.live) (hsize : b.userSize = 13) :
    (checkAccess h params (b.userBase + 13) 4 ctx).map ErrorInfo.errorType =
        some BadAccessKind.HEAP_BUFFER_OVERFLOW ∧
      (checkAccess h params (b.userBase - 1) 4 ctx).map ErrorInfo.errorType =
        some BadAccessKind.HEAP_BUFFER_UNDERFLOW ∧
      ∀ i : Nat, i < 13 →
        checkAccess h params (b.userBase + (i : Int)) 4 ctx = none := by
  obtain ⟨hpd, hwfb⟩ := wfHeapB_parts h hwf
  obtain ⟨hrzf, hrzb⟩ := (wfBlockB_iff b).mp (hwfb b hb)
  have hue : b.userEnd = b.userBase + 13 := by simp [Block.userEnd, hsize]
  have hhi : b.hi = b.userBase + 13 + (b.redzoneBack : Int) := by
    simp [Block.hi, hsize]
  have hlo : b.lo = b.userBase - (b.redzoneFront : Int) := rfl
  refine ⟨?_, ?_, ?_⟩
  · have hcov : b.coversB (b.userBase + 13) = true :=
      coversB_of_back b _ (by omega) (by omega)
    have hacc : accessible h (b.userBase + 13) = false :=
      accessible_false_of_outside_user h b _ hpd hb hcov (Or.inr (by omega))
    have hcls := classifyBad_overflow h b _ hpd hb hcov (by omega)
    simp [checkAccess, hacc, mkErrorInfo_errorType, hcls]
  · have hcov : b.coversB (b.userBase - 1) = true :=
      coversB_of_front b _ (by omega) (by omega)
    have hacc : accessible h (b.userBase - 1) = false :=
      accessible_false_of_outside_user h b _ hpd hb hcov (Or.inl (by omega))
    have hcls := classifyBad_underflow h b _ hpd hb hcov (by omega)
    simp [checkAccess, hacc, mkErrorInfo_errorType, hcls]
  · intro i hi
    have hacc : accessible h (b.userBase + (i : Int)) = true :=
      accessible_user h b _ hpd hb hlive (by omega) (by omega)
    simp [checkAccess, hacc]

/-- C1 witness: evaluation of the claim on the concrete 13-byte allocation. -/
theorem C1_witness :
    (checkAccess demoHeap demoParams (demoBlock.userBase + 13) 4 demoCtx).map
        ErrorInfo.errorType = some BadAccessKind.HEAP_BUFFER_OVERFLOW ∧
      (checkAccess demoHeap demoParams (demoBlock.userBase - 1) 4 demoCtx).map
        ErrorInfo.errorType = some BadAccessKind.HEAP_BUFFER_UNDERFLOW ∧
      checkAccess demoHeap demoParams (demoBlock.userBase + ((5 : Nat) : Int)) 4
        demoCtx = none := by
  have h := C1_alloc13_probes demoHeap demoParams demoCtx demoBlock
    (by decide) (by decide) (by decide) (by decide)
  exact ⟨h.1, h.2.1, h.2.2 5 (by decide)⟩

/-- C4: a range-based access check with an element count of zero makes no
shadow-memory query and reports no error, for every heap state, memory
contents, instruction kind, width, direction and base addresses. -/
theorem C4_zero_count_noop (h : HeapState) (params : RuntimeParams)
    (mem : Int → Nat) (kind : AccessKind) (width : Nat) (dir : Direction)
    (dst src : Int) (ctx : CpuContext) :
    checkSpecial h params mem kind width 0 dir dst src ctx = none := by
  simp [checkSpecial]

/-- C9: the access-check entry points preserve the caller CPU context, and
the context captured into any produced error report equals the context at
the access site, for both single-address and range checks. -/
theorem C9_context_roundtrip (h : HeapState) (params : RuntimeParams) (a : Int)
    (size : Nat) (ctx : CpuContext) (mem : Int → Nat) (kind : AccessKind)
    (width count : Nat) (dir : Direction) (dst src : Int) :
    (checkAccessEntry h params a size ctx).1 = ctx ∧
      (∀ e, (checkAccessEntry h params a size ctx).2 = some e →
        e.context = ctx) ∧
      (∀ e, checkSpecial h params mem kind width count dir dst src ctx = some e →
        e.context = ctx) := by
  refine ⟨rfl, ?_, ?_⟩
  · intro e he
    simp only [checkAccessEntry, checkAccess] at he
    split at he
    · cases he
    · have h2 := Option.some.inj he
      rw [← h2, mkErrorInfo_context]
  · intro e he
    simp only [checkSpecial] at he
    split at he
    · cases he
    · split at he
      · have h2 := Option.some.inj he
        rw [← h2, mkErrorInfo_context]
      · split at he
        · have h2 := Option.some.inj he
          rw [← h2, mkErrorInfo_context]
        · cases he

/-- C9 witness: evaluation on a concrete error-producing access. -/
theorem C9_witness :
    (checkAccessEntry demoHeap demoParams 100013 4 demoCtx).1 = demoCtx ∧
      (mkErrorInfo demoHeap demoParams 100013 4 demoCtx).context = demoCtx := by
  have h := C9_context_roundtrip demoHeap demoParams 100013 4 demoCtx demoMem0
    AccessKind.movs 4 1 Direction.forward 300000 200000
  exact ⟨h.1, h.2.1 (mkErrorInfo demoHeap demoParams 100013 4 demoCtx) (by decide)⟩

/-- C2: after a block is freed, an access check at any byte of its former
user range reports USE_AFTER_FREE carrying the recorded non-empty free stack
and nonzero free thread id; freeing the same pointer a second time reports
DOUBLE_FREE, fails, and leaves the heap state (hence shadow state and block
metadata) unchanged. -/
theorem C2_uaf_then_double_free (params : RuntimeParams) (ctx ctx2 : CpuContext)
    (pre post : List Block) (b : Block) (fs fs2 : List Nat) (ftid ftid2 : Nat)
    (sz : Nat) (hwf : wfHeapB ⟨pre ++ b :: post⟩ = true)
    (hlive : b.state = BlockState.live) (hfs : fs ≠ []) (hftid : ftid ≠ 0) :
    (heapFree ⟨pre ++ b :: post⟩ b.userBase fs ftid ctx).2.1 = true ∧
      (∀ a : Int, b.userBase ≤ a → a < b.userEnd →
        (checkAccess (heapFree ⟨pre ++ b :: post⟩ b.userBase fs ftid ctx).1
            params a sz ctx).map (fun e => (e.errorType, e.freeStack, e.freeTid)) =
          some (BadAccessKind.USE_AFTER_FREE, fs, ftid) ∧ fs ≠ [] ∧ ftid ≠ 0) ∧
      (heapFree (heapFree ⟨pre ++ b :: post⟩ b.userBase fs ftid ctx).1 b.userBase
          fs2 ftid2 ctx2).1 =
        (heapFree ⟨pre ++ b :: post⟩ b.userBase fs ftid ctx).1 ∧
      (heapFree (heapFree ⟨pre ++ b :: post⟩ b.userBase fs ftid ctx).1 b.userBase
          fs2 ftid2 ctx2).2.1 = false ∧
      ((heapFree (heapFree ⟨pre ++ b :: post⟩ b.userBase fs ftid ctx).1 b.userBase
          fs2 ftid2 ctx2).2.2).map ErrorInfo.errorType =
        [BadAccessKind.DOUBLE_FREE] := by
  obtain ⟨hpd, hwfb⟩ := wfHeapB_parts _ hwf
  have hbmem : b ∈ pre ++ b :: post :=
    List.mem_append_right _ (List.mem_cons_self b post)
  have hpre_ne : ∀ c ∈ pre, c.userBase ≠ b.userBase := by
    intro c hc
    exact userBase_ne_of_disjoint c b (hwfb c (List.mem_append_left _ hc))
      (hwfb b hbmem) (pairwise_pre_disjoint pre post b hpd c hc)
  have hscan := freeScan_live pre post b b.userBase fs ftid ctx hpre_ne rfl hlive
  have hfree1 : heapFree ⟨pre ++ b :: post⟩ b.userBase fs ftid ctx =
      (⟨pre ++ freeStamp b fs ftid :: post⟩, true,
        if checksumOkB b then []
        else [blockErr b BadAccessKind.CORRUPT_BLOCK ctx]) := by
    simp [heapFree, hscan]
  have hfst : (heapFree ⟨pre ++ b :: post⟩ b.userBase fs ftid ctx).1 =
      ⟨pre ++ freeStamp b fs ftid :: post⟩ := by rw [hfree1]
  have hpd1 : pairwiseDisjointB (pre ++ freeStamp b fs ftid :: post) = true :=
    pairwiseDisjointB_replace pre post b (freeStamp b fs ftid)
      (freeStamp_lo b fs ftid) (freeStamp_hi b fs ftid) hpd
  have hbFmem : freeStamp b fs ftid ∈ pre ++ freeStamp b fs ftid :: post :=
    List.mem_append_right _ (List.mem_cons_self _ _)
  refine ⟨by rw [hfree1], ?_, ?_, ?_, ?_⟩
  · intro a ha1 ha2
    have hub : (freeStamp b fs ftid).userBase ≤ a := by
      rw [freeStamp_userBase]; exact ha1
    have hua : a < (freeStamp b fs ftid).userEnd := by
      rw [freeStamp_userEnd]; exact ha2
    have hcov : (freeStamp b fs ftid).coversB a = true :=
      coversB_of_user _ a hub hua
    have hacc : accessible ⟨pre ++ freeStamp b fs ftid :: post⟩ a = false :=
      accessible_false_of_freed _ (freeStamp b fs ftid) a hpd1 hbFmem hcov
        (freeStamp_state b fs ftid)
    have hcls : classifyBad ⟨pre ++ freeStamp b fs ftid :: post⟩ a =
        BadAccessKind.USE_AFTER_FREE :=
      classifyBad_uaf _ (freeStamp b fs ftid) a hpd1 hbFmem
        (freeStamp_state b fs ftid) hub hua
    have hfb : findBlock ⟨pre ++ freeStamp b fs ftid :: post⟩ a =
        some (freeStamp b fs ftid) :=
      findBlock_eq _ (freeStamp b fs ftid) a hpd1 hbFmem hcov
    obtain ⟨hfs', hft'⟩ :=
      mkErrorInfo_free_fields ⟨pre ++ freeStamp b fs ftid :: post⟩ params a sz ctx
        (freeStamp b fs ftid) hfb
    refine ⟨?_, hfs, hftid⟩
    rw [hfst]
    simp only [checkAccess, hacc, Bool.false_eq_true, if_false, Option.map_some']
    rw [mkErrorInfo_errorType, hcls, hfs', hft', freeStamp_freeStack,
      freeStamp_freeTid]
  · have hscan2 := freeScan_freed pre post (freeStamp b fs ftid) b.userBase fs2
      ftid2 ctx2 hpre_ne (freeStamp_userBase b fs ftid) (freeStamp_state b fs ftid)
    rw [hfst]
    simp [heapFree, hscan2]
  · have hscan2 := freeScan_freed pre post (freeStamp b fs ftid) b.userBase fs2
      ftid2 ctx2 hpre_ne (freeStamp_userBase b fs ftid) (freeStamp_state b fs ftid)
    rw [hfst]
    simp [heapFree, hscan2]
  · have hscan2 := freeScan_freed pre post (freeStamp b fs ftid) b.userBase fs2
      ftid2 ctx2 hpre_ne (freeStamp_userBase b fs ftid) (freeStamp_state b fs ftid)
    rw [hfst]
    simp [heapFree, hscan2, blockErr]

/-- C2 witness: evaluation on the concrete 13-byte allocation. -/
theorem C2_witness :
    (heapFree ⟨[demoBlock]⟩ demoBlock.userBase [3] 7 demoCtx).2.1 = true ∧
      (checkAccess (heapFree ⟨[demoBlock]⟩ demoBlock.userBase [3] 7 demoCtx).1
          demoParams demoBlock.userBase 4 demoCtx).map
        (fun e => (e.errorType, e.freeStack, e.freeTid)) =
        some (BadAccessKind.USE_AFTER_FREE, [3], 7) ∧
      (heapFree (heapFree ⟨[demoBlock]⟩ demoBlock.userBase [3] 7 demoCtx).1
          demoBlock.userBase [9] 11 demoCtx).2.1 = false := by
  have h := C2_uaf_then_double_free demoParams demoCtx demoCtx [] [] demoBlock
    [3] [9] 7 11 4 (by decide) (by decide) (by decide) (by decide)
  exact ⟨h.1, (h.2.1 demoBlock.userBase (le_refl _) (by decide)).1, h.2.2.2.1⟩

/-- Concrete live block whose stored checksum does not validate. -/
def demoCorrupt : Block := { demoBlock with checksum := demoBlock.checksum + 1 }

/-- Concrete heap holding the corrupt block. -/
def demoHeapCorrupt : HeapState := ⟨[demoCorrupt]⟩

/-- Concrete heap holding an already freed block. -/
def demoHeapFreed : HeapState := ⟨[freeStamp demoBlock [3] 7]⟩

/-- C7: when Free is called on a live block whose checksum no longer
validates, a CORRUPT_BLOCK error is reported to the callback during that
free call. -/
theorem C7_free_corrupt_block_reports (pre post : List Block) (b : Block)
    (fs : List Nat) (ftid : Nat) (ctx : CpuContext)
    (hwf : wfHeapB ⟨pre ++ b :: post⟩ = true)
    (hlive : b.state = BlockState.live) (hbad : checksumOkB b = false) :
    ((heapFree ⟨pre ++ b :: post⟩ b.userBase fs ftid ctx).2.2).map
      ErrorInfo.errorType = [BadAccessKind.CORRUPT_BLOCK] := by
  obtain ⟨hpd, hwfb⟩ := wfHeapB_parts _ hwf
  have hbmem : b ∈ pre ++ b :: post :=
    List.mem_append_right _ (List.mem_cons_self b post)
  have hpre_ne : ∀ c ∈ pre, c.userBase ≠ b.userBase := by
    intro c hc
    exact userBase_ne_of_disjoint c b (hwfb c (List.mem_append_left _ hc))
      (hwfb b hbmem) (pairwise_pre_disjoint pre post b hpd c hc)
  have hscan := freeScan_live pre post b b.userBase fs ftid ctx hpre_ne rfl hlive
  simp [heapFree, hscan, hbad, blockErr]

/-- C7 witness: evaluation on the concrete corrupt block. -/
theorem C7_witness :
    ((heapFree demoHeapCorrupt demoCorrupt.userBase [3] 7 demoCtx).2.2).map
      ErrorInfo.errorType = [BadAccessKind.CORRUPT_BLOCK] :=
  C7_free_corrupt_block_reports [] [] demoCorrupt [3] 7 demoCtx
    (by decide) (by decide) (by decide)

/-- C10: Free returns false when the free is rejected as a DOUBLE_FREE, but
returns true when the free proceeds while reporting a CORRUPT_BLOCK error:
the corrupt-block report does not make the free call itself fail. -/
theorem C10_free_return_values (pre1 post1 pre2 post2 : List Block)
    (b1 b2 : Block) (fs : List Nat) (ftid : Nat) (ctx : CpuContext)
    (hwf1 : wfHeapB ⟨pre1 ++ b1 :: post1⟩ = true)
    (hfr : b1.state = BlockState.freed)
    (hwf2 : wfHeapB ⟨pre2 ++ b2 :: post2⟩ = true)
    (hlive : b2.state = BlockState.live) (hbad : checksumOkB b2 = false) :
    (heapFree ⟨pre1 ++ b1 :: post1⟩ b1.userBase fs ftid ctx).2.1 = false ∧
      ((heapFree ⟨pre1 ++ b1 :: post1⟩ b1.userBase fs ftid ctx).2.2).map
        ErrorInfo.errorType = [BadAccessKind.DOUBLE_FREE] ∧
      (heapFree ⟨pre2 ++ b2 :: post2⟩ b2.userBase fs ftid ctx).2.1 = true ∧
      ((heapFree ⟨pre2 ++ b2 :: post2⟩ b2.userBase fs ftid ctx).2.2).map
        ErrorInfo.errorType = [BadAccessKind.CORRUPT_BLOCK] := by
  obtain ⟨hpd1, hwfb1⟩ := wfHeapB_parts _ hwf1
  have hbmem1 : b1 ∈ pre1 ++ b1 :: post1 :=
    List.mem_append_right _ (List.mem_cons_self b1 post1)
  have hpre_ne1 : ∀ c ∈ pre1, c.userBase ≠ b1.userBase := by
    intro c hc
    exact userBase_ne_of_disjoint c b1 (hwfb1 c (List.mem_append_left _ hc))
      (hwfb1 b1 hbmem1) (pairwise_pre_disjoint pre1 post1 b1 hpd1 c hc)
  obtain ⟨hpd2, hwfb2⟩ := wfHeapB_parts _ hwf2
  have hbmem2 : b2 ∈ pre2 ++ b2 :: post2 :=
    List.mem_append_right _ (List.mem_cons_self b2 post2)
  have hpre_ne2 : ∀ c ∈ pre2, c.userBase ≠ b2.userBase := by
    intro c hc
    exact userBase_ne_of_disjoint c b2 (hwfb2 c (List.mem_append_left _ hc))
      (hwfb2 b2 hbmem2) (pairwise_pre_disjoint pre2 post2 b2 hpd2 c hc)
  have hscan1 := freeScan_freed pre1 post1 b1 b1.userBase fs ftid ctx hpre_ne1
    rfl hfr
  have hscan2 := freeScan_live pre2 post2 b2 b2.userBase fs ftid ctx hpre_ne2
    rfl hlive
  refine ⟨?_, ?_, ?_, ?_⟩
  · simp [heapFree, hscan1]
  · simp [heapFree, hscan1, blockErr]
  · simp [heapFree, hscan2]
  · simp [heapFree, hscan2, hbad, blockErr]

/-- C10 witness: evaluation on the concrete freed and corrupt blocks. -/
theorem C10_witness :
    (heapFree demoHeapFreed (freeStamp demoBlock [3] 7).userBase [9] 11
        demoCtx).2.1 = false ∧
      (heapFree demoHeapCorrupt demoCorrupt.userBase [9] 11 demoCtx).2.1 =
        true := by
  have h := C10_free_return_values [] [] [] [] (freeStamp demoBlock [3] 7)
    demoCorrupt [9] 11 demoCtx (by decide) (by decide) (by decide) (by decide)
    (by decide)
  exact ⟨h.1, h.2.2.1⟩

/-- C3: a compare-type range check validates only up to and including the
first element at which the compare would stop: when a mismatching element
exists before the nominal end, no error is reported for any heap state in
which the elements up to the mismatch are accessible, regardless of how far
the nominal count extends. -/
theorem C3_cmps_shortcut (h : HeapState) (params : RuntimeParams)
    (mem : Int → Nat) (width count : Nat) (dir : Direction) (dst src : Int)
    (ctx : CpuContext) (m : Nat) (hm : m < count)
    (hpre : ∀ i < m,
      elemEqB mem (elemAddr dst width dir i) (elemAddr src width dir i) width
        = true)
    (hmis : elemEqB mem (elemAddr dst width dir m) (elemAddr src width dir m)
      width = false)
    (hacc : ∀ i < m + 1, ∀ j < width,
      accessible h (elemAddr src width dir i + (j : Int)) = true ∧
        accessible h (elemAddr dst width dir i + (j : Int)) = true) :
    checkSpecial h params mem AccessKind.cmps width count dir dst src ctx =
      none := by
  have heff := effectiveCount_cmps_mismatch mem width dir dst src count m hm
    hpre hmis
  have hsrc : findBadByte h src width dir (m + 1) = none :=
    (findBadByte_none_iff h src width dir (m + 1)).mpr
      (fun i hi j hj => (hacc i hi j hj).1)
  have hdst : findBadByte h dst width dir (m + 1) = none :=
    (findBadByte_none_iff h dst width dir (m + 1)).mpr
      (fun i hi j hj => (hacc i hi j hj).2)
  apply checkSpecial_all_ok
  · omega
  · right; rw [heff]; exact hsrc
  · rw [heff]; exact hdst

/-- C3 witness: the shortcut unit-test scenario: element 1 of the source
buffer differs, the nominal count 14 exceeds the 13-element buffers, and no
error is reported. -/
theorem C3_witness :
    checkSpecial demoHeap2 demoParams demoMem3 AccessKind.cmps 4 14
      Direction.forward 300000 200000 demoCtx = none :=
  C3_cmps_shortcut demoHeap2 demoParams demoMem3 4 14 Direction.forward
    300000 200000 demoCtx 1 (by decide) (by decide) (by decide) (by decide)

/-- C6: corrupting one non-essential trailer field of a live block makes a
subsequent overflow-triggering access report heap_is_corrupt with exactly one
corrupt range holding exactly one block entry whose corrupt flag is set and
whose recorded user size equals the originally requested allocation size. -/
theorem C6_corrupt_trailer_scan (params : RuntimeParams) (ctx : CpuContext)
    (pre post : List Block) (b : Block) (v : Nat)
    (hwf : wfHeapB ⟨pre ++ b :: post⟩ = true)
    (hok : ∀ c ∈ pre ++ b :: post, checksumOkB c = true)
    (hv : v ≠ b.trailer.allocTid)
    (hparams : params.checkHeapOnFailure = true) :
    (checkAccess
        ⟨pre ++ ({ b with trailer := { b.trailer with allocTid := v } }) :: post⟩
        params b.userEnd 4 ctx).map
      (fun e => (e.errorType, e.heapIsCorrupt,
        e.corruptRanges.map (fun r => r.blockInfos.map
          (fun i => (i.corrupt, i.userSize))))) =
      some (BadAccessKind.HEAP_BUFFER_OVERFLOW, true, [[(true, b.userSize)]]) := by
  obtain ⟨hpd, hwfb⟩ := wfHeapB_parts _ hwf
  have hbmem : b ∈ pre ++ b :: post :=
    List.mem_append_right _ (List.mem_cons_self b post)
  obtain ⟨hrzf, hrzb⟩ := (wfBlockB_iff b).mp (hwfb b hbmem)
  set bC : Block := { b with trailer := { b.trailer with allocTid := v } }
    with hbCdef
  have hloC : bC.lo = b.lo := rfl
  have hhiC : bC.hi = b.hi := rfl
  have hueC : bC.userEnd = b.userEnd := rfl
  have hpdC : pairwiseDisjointB (pre ++ bC :: post) = true :=
    pairwiseDisjointB_replace pre post b bC hloC hhiC hpd
  have hbCmem : bC ∈ pre ++ bC :: post :=
    List.mem_append_right _ (List.mem_cons_self _ _)
  have hbadC : checksumOkB bC = false :=
    corrupt_trailer_invalidates b v (hok b hbmem) hv
  have hue : b.userEnd = b.userBase + (b.userSize : Int) := rfl
  have hhi : b.hi = b.userBase + (b.userSize : Int) + (b.redzoneBack : Int) := rfl
  have hcov : bC.coversB b.userEnd = true := by
    apply coversB_of_back
    · rw [hueC]
    · rw [hhiC]; omega
  have hacc : accessible ⟨pre ++ bC :: post⟩ b.userEnd = false :=
    accessible_false_of_outside_user _ bC _ hpdC hbCmem hcov
      (Or.inr (by rw [hueC]))
  have hcls : classifyBad ⟨pre ++ bC :: post⟩ b.userEnd =
      BadAccessKind.HEAP_BUFFER_OVERFLOW :=
    classifyBad_overflow _ bC _ hpdC hbCmem hcov (by rw [hueC])
  have hscanC : scanForCorruption ⟨pre ++ bC :: post⟩ =
      [{ spanLo := bC.lo, spanHi := bC.hi, blockInfos := [toBlockInfo bC] }] :=
    scanForCorruption_single pre post bC
      (fun c hc => hok c (List.mem_append_left _ hc))
      (fun c hc => hok c (List.mem_append_right _ (List.mem_cons_of_mem b hc)))
      hbadC
  obtain ⟨hcr, hic⟩ :=
    mkErrorInfo_scan_fields ⟨pre ++ bC :: post⟩ params b.userEnd 4 ctx hparams
  simp only [checkAccess, hacc, Bool.false_eq_true, if_false, Option.map_some']
  rw [mkErrorInfo_errorType, hcls, hic, hcr, hscanC]
  simp [toBlockInfo, hbadC, hbCdef]

/-- C6 witness: evaluation on the concrete 13-byte allocation with its
trailer allocation-thread field changed. -/
theorem C6_witness :
    (checkAccess
        ⟨[{ demoBlock with
              trailer := { demoBlock.trailer with allocTid := 6 } }]⟩
        demoParamsScan demoBlock.userEnd 4 demoCtx).map
      (fun e => (e.errorType, e.heapIsCorrupt,
        e.corruptRanges.map (fun r => r.blockInfos.map
          (fun i => (i.corrupt, i.userSize))))) =
      some (BadAccessKind.HEAP_BUFFER_OVERFLOW, true, [[(true, 13)]]) :=
  C6_corrupt_trailer_scan demoParamsScan demoCtx [] [] demoBlock 6
    (by decide) (by decide) (by decide) (by decide)

theorem findBadByte_one_bad (h : HeapState) (base : Int) (width : Nat)
    (dir : Direction) (hw : 0 < width) (hacc : accessible h base = false) :
    findBadByte h base width dir 1 = some base := by
  rw [findBadByte_one]
  exact findBadInElem_first h base width hw hacc

theorem findBadByte_one_user_ok (h : HeapState) (b : Block) (base : Int)
    (width : Nat) (dir : Direction) (hpd : pairwiseDisjointB h.blocks = true)
    (hb : b ∈ h.blocks) (hlive : b.state = BlockState.live)
    (h1 : b.userBase ≤ base) (h2 : base + (width : Int) ≤ b.userEnd) :
    findBadByte h base width dir 1 = none := by
  rw [findBadByte_one]
  apply (findBadInElem_none_iff h base width).mpr
  intro j hj
  exact accessible_user h b _ hpd hb hlive (by omega) (by omega)

/-- C5 (amended): for movs and cmps the source range and the destination
range are validated independently and a violation on either side is reported
with that side faulting address and the appropriate overflow or underflow
classification; stos has no memory source range: only its destination range
is validated, and a source-side violation alone produces no report. -/
theorem C5_sides_amended (h : HeapState) (params : RuntimeParams)
    (mem : Int → Nat) (ctx : CpuContext) (db sb : Block) (kind : AccessKind)
    (width : Nat) (hwf : wfHeapB h = true) (hdb : db ∈ h.blocks)
    (hsb : sb ∈ h.blocks) (hdlive : db.state = BlockState.live)
    (hslive : sb.state = BlockState.live) (hw1 : 0 < width) (hw8 : width ≤ 8)
    (hwd : width ≤ db.userSize) (hws : width ≤ sb.userSize)
    (hkind : kind = AccessKind.movs ∨ kind = AccessKind.cmps) :
    ((checkSpecial h params mem kind width 1 Direction.forward db.userBase
        (sb.userBase - (width : Int)) ctx).map
        (fun e => (e.errorType, e.address)) =
      some (BadAccessKind.HEAP_BUFFER_UNDERFLOW, sb.userBase - (width : Int))) ∧
    ((checkSpecial h params mem kind width 1 Direction.forward
        (db.userBase - (width : Int)) sb.userBase ctx).map
        (fun e => (e.errorType, e.address)) =
      some (BadAccessKind.HEAP_BUFFER_UNDERFLOW, db.userBase - (width : Int))) ∧
    ((checkSpecial h params mem kind width 1 Direction.forward db.userBase
        sb.userEnd ctx).map (fun e => (e.errorType, e.address)) =
      some (BadAccessKind.HEAP_BUFFER_OVERFLOW, sb.userEnd)) ∧
    ((checkSpecial h params mem kind width 1 Direction.forward db.userEnd
        sb.userBase ctx).map (fun e => (e.errorType, e.address)) =
      some (BadAccessKind.HEAP_BUFFER_OVERFLOW, db.userEnd)) ∧
    (checkSpecial h params mem AccessKind.stos width 1 Direction.forward
        db.userBase (sb.userBase - (width : Int)) ctx = none) ∧
    ((checkSpecial h params mem AccessKind.stos width 1 Direction.forward
        (db.userBase - (width : Int)) (sb.userBase - (width : Int)) ctx).map
        (fun e => (e.errorType, e.address)) =
      some (BadAccessKind.HEAP_BUFFER_UNDERFLOW, db.userBase - (width : Int))) := by
  obtain ⟨hpd, hwfb⟩ := wfHeapB_parts h hwf
  obtain ⟨hdrzf, hdrzb⟩ := (wfBlockB_iff db).mp (hwfb db hdb)
  obtain ⟨hsrzf, hsrzb⟩ := (wfBlockB_iff sb).mp (hwfb sb hsb)
  have hdlo : db.lo = db.userBase - (db.redzoneFront : Int) := rfl
  have hdhi : db.hi = db.userBase + (db.userSize : Int) + (db.redzoneBack : Int) := rfl
  have hdue : db.userEnd = db.userBase + (db.userSize : Int) := rfl
  have hslo : sb.lo = sb.userBase - (sb.redzoneFront : Int) := rfl
  have hshi : sb.hi = sb.userBase + (sb.userSize : Int) + (sb.redzoneBack : Int) := rfl
  have hsue : sb.userEnd = sb.userBase + (sb.userSize : Int) := rfl
  have hkstos : kind ≠ AccessKind.stos := by
    rcases hkind with hk | hk <;> subst hk <;> intro hc <;> cases hc
  -- source front-redzone violation
  have hcovSF : sb.coversB (sb.userBase - (width : Int)) = true :=
    coversB_of_front sb _ (by omega) (by omega)
  have haccSF : accessible h (sb.userBase - (width : Int)) = false :=
    accessible_false_of_outside_user h sb _ hpd hsb hcovSF (Or.inl (by omega))
  have hclsSF : classifyBad h (sb.userBase - (width : Int)) =
      BadAccessKind.HEAP_BUFFER_UNDERFLOW :=
    classifyBad_underflow h sb _ hpd hsb hcovSF (by omega)
  -- destination front-redzone violation
  have hcovDF : db.coversB (db.userBase - (width : Int)) = true :=
    coversB_of_front db _ (by omega) (by omega)
  have haccDF : accessible h (db.userBase - (width : Int)) = false :=
    accessible_false_of_outside_user h db _ hpd hdb hcovDF (Or.inl (by omega))
  have hclsDF : classifyBad h (db.userBase - (width : Int)) =
      BadAccessKind.HEAP_BUFFER_UNDERFLOW :=
    classifyBad_underflow h db _ hpd hdb hcovDF (by omega)
  -- source back-redzone violation
  have hcovSB : sb.coversB sb.userEnd = true :=
    coversB_of_back sb _ (le_refl _) (by omega)
  have haccSB : accessible h sb.userEnd = false :=
    accessible_false_of_outside_user h sb _ hpd hsb hcovSB (Or.inr (le_refl _))
  have hclsSB : classifyBad h sb.userEnd = BadAccessKind.HEAP_BUFFER_OVERFLOW :=
    classifyBad_overflow h sb _ hpd hsb hcovSB (le_refl _)
  -- destination back-redzone violation
  have hcovDB : db.coversB db.userEnd = true :=
    coversB_of_back db _ (le_refl _) (by omega)
  have haccDB : accessible h db.userEnd = false :=
    accessible_false_of_outside_user h db _ hpd hdb hcovDB (Or.inr (le_refl _))
  have hclsDB : classifyBad h db.userEnd = BadAccessKind.HEAP_BUFFER_OVERFLOW :=
    classifyBad_overflow h db _ hpd hdb hcovDB (le_refl _)
  -- in-range single elements
  have hokS : findBadByte h sb.userBase width Direction.forward 1 = none :=
    findBadByte_one_user_ok h sb sb.userBase width Direction.forward hpd hsb
      hslive (le_refl _) (by omega)
  have hokD : findBadByte h db.userBase width Direction.forward 1 = none :=
    findBadByte_one_user_ok h db db.userBase width Direction.forward hpd hdb
      hdlive (le_refl _) (by omega)
  refine ⟨?_, ?_, ?_, ?_, ?_, ?_⟩
  · rw [checkSpecial_src_bad h params mem kind width 1 Direction.forward
      db.userBase (sb.userBase - (width : Int)) ctx _ hkstos (by omega)
      (by rw [effectiveCount_one]
          exact findBadByte_one_bad h _ width Direction.forward hw1 haccSF)]
    simp only [Option.map_some']
    rw [mkErrorInfo_errorType, hclsSF, mkErrorInfo_address]
  · rw [checkSpecial_src_ok_dst_bad h params mem kind width 1 Direction.forward
      (db.userBase - (width : Int)) sb.userBase ctx _ (by omega)
      (Or.inr (by rw [effectiveCount_one]; exact hokS))
      (by rw [effectiveCount_one]
          exact findBadByte_one_bad h _ width Direction.forward hw1 haccDF)]
    simp only [Option.map_some']
    rw [mkErrorInfo_errorType, hclsDF, mkErrorInfo_address]
  · rw [checkSpecial_src_bad h params mem kind width 1 Direction.forward
      db.userBase sb.userEnd ctx _ hkstos (by omega)
      (by rw [effectiveCount_one]
          exact findBadByte_one_bad h _ width Direction.forward hw1 haccSB)]
    simp only [Option.map_some']
    rw [mkErrorInfo_errorType, hclsSB, mkErrorInfo_address]
  · rw [checkSpecial_src_ok_dst_bad h params mem kind width 1 Direction.forward
      db.userEnd sb.userBase ctx _ (by omega)
      (Or.inr (by rw [effectiveCount_one]; exact hokS))
      (by rw [effectiveCount_one]
          exact findBadByte_one_bad h _ width Direction.forward hw1 haccDB)]
    simp only [Option.map_some']
    rw [mkErrorInfo_errorType, hclsDB, mkErrorInfo_address]
  · exact checkSpecial_all_ok h params mem AccessKind.stos width 1
      Direction.forward db.userBase (sb.userBase - (width : Int)) ctx
      (by omega) (Or.inl rfl)
      (by rw [effectiveCount_stos]; exact hokD)
  · rw [checkSpecial_src_ok_dst_bad h params mem AccessKind.stos width 1
      Direction.forward (db.userBase - (width : Int))
      (sb.userBase - (width : Int)) ctx _ (by omega) (Or.inl rfl)
      (by rw [effectiveCount_stos]
          exact findBadByte_one_bad h _ width Direction.forward hw1 haccDF)]
    simp only [Option.map_some']
    rw [mkErrorInfo_errorType, hclsDF, mkErrorInfo_address]

/-- C5 counterexample: a stos range check whose source operand address lies
in a redzone (a source-side violation) reports no error, refuting the claim
as stated, which includes stos among the instructions whose source range is
validated and whose source-side violations are reported. -/
theorem C5_counterexample :
    accessible demoHeap2 (200000 - 4 : Int) = false ∧
      checkSpecial demoHeap2 demoParams demoMem0 AccessKind.stos 4 1
        Direction.forward 300000 (200000 - 4 : Int) demoCtx = none := by
  exact ⟨by decide, by decide⟩

/-- C5 witness: evaluation of the amended claim on the concrete buffers. -/
theorem C5_witness :
    ((checkSpecial demoHeap2 demoParams demoMem0 AccessKind.movs 4 1
        Direction.forward demoDst.userBase (demoSrc.userBase - ((4 : Nat) : Int))
        demoCtx).map (fun e => (e.errorType, e.address)) =
      some (BadAccessKind.HEAP_BUFFER_UNDERFLOW,
        demoSrc.userBase - ((4 : Nat) : Int))) ∧
      checkSpecial demoHeap2 demoParams demoMem0 AccessKind.stos 4 1
        Direction.forward demoDst.userBase (demoSrc.userBase - ((4 : Nat) : Int))
        demoCtx = none := by
  have h := C5_sides_amended demoHeap2 demoParams demoMem0 demoCtx demoDst
    demoSrc AccessKind.movs 4 (by decide) (by decide) (by decide) (by decide)
    (by decide) (by decide) (by decide) (by decide) (by decide) (Or.inl rfl)
  exact ⟨h.1, h.2.2.2.2.1⟩

theorem backward_full_range_accessible (h : HeapState) (b : Block)
    (width n : Nat) (hpd : pairwiseDisjointB h.blocks = true)
    (hb : b ∈ h.blocks) (hlive : b.state = BlockState.live)
    (hsize : b.userSize = n * width) :
    ∀ i < n, ∀ j < width,
      accessible h (elemAddr (b.userBase + (((n - 1) * width : Nat) : Int))
        width Direction.backward i + (j : Int)) = true := by
  intro i hi j hj
  have hik : i + (n - 1 - i) = n - 1 := by omega
  have h2 : i * width + (n - 1 - i) * width = (n - 1) * width := by
    rw [← Nat.add_mul, hik]
  have h4 : ((n - 1 - i) + 1) * width = (n - 1 - i) * width + width :=
    Nat.succ_mul _ _
  have h3 : ((n - 1 - i) + 1) * width ≤ n * width :=
    Nat.mul_le_mul_right _ (by omega)
  have hue : b.userEnd = b.userBase + (b.userSize : Int) := rfl
  apply accessible_user h b _ hpd hb hlive
  · simp only [elemAddr]
    omega
  · simp only [elemAddr]
    rw [hue, hsize]
    omega

/-- C8: the byte range touched by a range access is the interval from base
to base + count * width when forward and from base - (count - 1) * width to
base + width when backward: the range check passes exactly when every byte of
that interval is addressable; in particular a backward range check based at
the last element of an allocation with a count equal to the full element
length reports no error. -/
theorem C8_touched_range (h : HeapState) (params : RuntimeParams)
    (mem : Int → Nat) (ctx : CpuContext) (width n : Nat) (db sb : Block)
    (hwf : wfHeapB h = true) (hdb : db ∈ h.blocks) (hsb : sb ∈ h.blocks)
    (hdlive : db.state = BlockState.live) (hslive : sb.state = BlockState.live)
    (hw : 0 < width) (hn : 0 < n) (hdsize : db.userSize = n * width)
    (hssize : sb.userSize = n * width) (hmem : ∀ x : Int, mem x = 0) :
    (∀ (base : Int) (count : Nat) (dir : Direction), 0 < count →
      (findBadByte h base width dir count = none ↔
        ∀ a : Int, touchLo base count width dir ≤ a →
          a < touchHi base count width dir → accessible h a = true)) ∧
      ∀ kind : AccessKind,
        checkSpecial h params mem kind width n Direction.backward
          (db.userBase + (((n - 1) * width : Nat) : Int))
          (sb.userBase + (((n - 1) * width : Nat) : Int)) ctx = none := by
  obtain ⟨hpd, hwfb⟩ := wfHeapB_parts h hwf
  constructor
  · intro base count dir hc
    cases dir with
    | forward =>
      rw [findBadByte_none_iff]
      simpa only [touchLo, touchHi] using
        forward_cover base width (fun a => accessible h a = true) count
    | backward =>
      cases count with
      | zero => omega
      | succ c =>
        rw [findBadByte_none_iff]
        simpa only [touchLo, touchHi, Nat.add_sub_cancel] using
          backward_cover base width (fun a => accessible h a = true) c
  · intro kind
    have hsrcN : findBadByte h (sb.userBase + (((n - 1) * width : Nat) : Int))
        width Direction.backward n = none :=
      (findBadByte_none_iff h _ width Direction.backward n).mpr
        (backward_full_range_accessible h sb width n hpd hsb hslive hssize)
    have hdstN : findBadByte h (db.userBase + (((n - 1) * width : Nat) : Int))
        width Direction.backward n = none :=
      (findBadByte_none_iff h _ width Direction.backward n).mpr
        (backward_full_range_accessible h db width n hpd hdb hdlive hdsize)
    have hcn : n ≠ 0 := by omega
    cases kind with
    | movs =>
      exact checkSpecial_all_ok h params mem AccessKind.movs width n
        Direction.backward _ _ ctx hcn
        (Or.inr (by rw [effectiveCount_movs]; exact hsrcN))
        (by rw [effectiveCount_movs]; exact hdstN)
    | stos =>
      exact checkSpecial_all_ok h params mem AccessKind.stos width n
        Direction.backward _ _ ctx hcn (Or.inl rfl)
        (by rw [effectiveCount_stos]; exact hdstN)
    | cmps =>
      have heff := effectiveCount_cmps_all_eq mem width Direction.backward
        (db.userBase + (((n - 1) * width : Nat) : Int))
        (sb.userBase + (((n - 1) * width : Nat) : Int)) n
        (fun i hi => elemEqB_const mem 0 hmem _ _ width)
      exact checkSpecial_all_ok h params mem AccessKind.cmps width n
        Direction.backward _ _ ctx hcn
        (Or.inr (by rw [heff]; exact hsrcN))
        (by rw [heff]; exact hdstN)

/-- C8 witness: the backward range check based at the last element of the
13-element buffers with the full count reports no error. -/
theorem C8_witness :
    checkSpecial demoHeap2 demoParams demoMem0 AccessKind.movs 4 13
      Direction.backward (demoDst.userBase + (((13 - 1) * 4 : Nat) : Int))
      (demoSrc.userBase + (((13 - 1) * 4 : Nat) : Int)) demoCtx = none :=
  (C8_touched_range demoHeap2 demoParams demoMem0 demoCtx 4 13 demoDst demoSrc
    (by decide) (by decide) (by decide) (by decide) (by decide) (by decide)
    (by decide) (by decide) (by decide) (fun x => rfl)).2 AccessKind.movs
